import Mathlib

/-!
# Verification of the GrowMeOrganic artwork-table component

A shallow embedding of the state logic of `src/src/App.tsx` (and of the
variant source file `src/unnamed/part_000`): a paginated table of artwork
records fetched from a REST API, with a cross-page row-selection feature.

The React component state is modelled as an explicit record `AppState`;
the network is an oracle `Api : Nat → Except Unit ApiResponse` where
`Except.error` stands for a rejected `fetch`/`json()` promise.  Each event
handler becomes a pure function from the old state (and the oracle) to the
new state together with the list of toast notifications it shows.
Console logging has no observable effect on state and is not modelled.
-/

namespace GrowMe

/-- An artwork record as described by `types/artwork` and consumed by the
component: an `id` plus opaque passthrough display fields. -/
structure Artwork where
  id : Nat
  title : String
  place_of_origin : String
  artist_display : String
  inscriptions : String
  date_start : Int
  date_end : Int
deriving Repr, DecidableEq

/-- Pagination metadata of an API response (`data.pagination`). -/
structure Pagination where
  total : Nat
  current_page : Nat
deriving Repr, DecidableEq

/-- A decoded API response.  `data = none` models a `null`/absent `data`
field (the code guards `!data.data` before using it in the select loop). -/
structure ApiResponse where
  data : Option (List Artwork)
  pagination : Pagination
deriving Repr, DecidableEq

/-- The network oracle: the result of `fetch` + `json()` for a page
number.  `Except.error` models a rejected promise (network or decode
failure), which the source handles in a `catch` block. -/
abbrev Api := Nat → Except Unit ApiResponse

/-- Severity of a toast notification. -/
inductive Severity where
  | error
  | warn
  | success
deriving Repr, DecidableEq

/-- A toast notification as passed to `toast.current?.show`. -/
structure Toast where
  severity : Severity
  summary : String
  detail : String
deriving Repr, DecidableEq

/-- The JS object `Record<number, boolean>` holding the selection map:
an association list whose keys are unique by construction (a JS object
cannot hold a key twice). -/
abbrev RowMap := List (Nat × Bool)

/-- Assignment `m[k] = v` on a JS object: update the binding in place when the key is
present, append it otherwise. -/
def RowMap.set : RowMap → Nat → Bool → RowMap
  | [], k, v => [(k, v)]
  | p :: ps, k, v => if p.1 = k then (k, v) :: ps else p :: RowMap.set ps k v

/-- Reading `m[k]` on a JS object: `some v` when the key is bound,
`none` for `undefined` (keys are unique, so the first binding is the
binding). -/
def RowMap.get : RowMap → Nat → Option Bool
  | [], _ => none
  | p :: ps, k => if p.1 = k then some p.2 else RowMap.get ps k

/-- The keys of the selection map. -/
def RowMap.keys (m : RowMap) : List Nat :=
  m.map (fun p => p.1)

/-- The keys currently mapped to `true`: the identifiers marked selected. -/
def RowMap.trueKeys (m : RowMap) : List Nat :=
  (m.filter (fun p => p.2)).map (fun p => p.1)

/-- Enumeration `Object.entries` on a JS object with integer-index keys enumerates
them in ascending numeric order. -/
def RowMap.entriesJS (m : RowMap) : List (Nat × Bool) :=
  List.insertionSort (fun p q => p.1 ≤ q.1) m

/-- The component state: one field per `useState` hook of `App`. -/
structure AppState where
  artworks : List Artwork
  totalRecords : Nat
  loading : Bool
  currentPage : Nat
  selectedArtworks : List Artwork
  selectedRows : RowMap
  rowsToSelect : Int
  selectedArtworkIds : List Nat
deriving Repr, DecidableEq

/-- The toast shown when a page fetch fails in `fetchArtworks`. -/
def fetchErrorToast : Toast :=
  { severity := .error, summary := "Error", detail := "Failed to fetch artwork data" }

/-- The toast shown for a non-positive row count in `selectRows`. -/
def warnToast : Toast :=
  { severity := .warn, summary := "Warning", detail := "Please enter a valid number" }

/-- The toast shown when a fetch inside the `selectRows` loop fails. -/
def selectErrorToast : Toast :=
  { severity := .error, summary := "Error",
    detail := "Failed to fetch additional artwork data for selection" }

/-- The toast shown after `selectRows` commits the selection. -/
def successToast (n : Nat) : Toast :=
  { severity := .success, summary := "Success",
    detail := "Selected " ++ toString n ++ " rows across pages" }

/-- Handler `fetchArtworks(page)`: set `loading`, fetch the page; on success store
the page data and pagination, on failure show an error toast; `finally`
clear `loading`.  A `null` payload stored by `setArtworks(data.data)` is
modelled as the empty list (every later read of `artworks` distinguishes
it only through emptiness before the component would crash rendering). -/
def fetchArtworks (api : Api) (page : Nat) (s : AppState) : AppState × List Toast :=
  match api page with
  | .ok r =>
      ({ s with
          artworks := r.data.getD [],
          totalRecords := r.pagination.total,
          currentPage := r.pagination.current_page,
          loading := false }, [])
  | .error _ =>
      ({ s with loading := false }, [fetchErrorToast])

/-- Handler `onPageChange`: the paginator is 0-based, the API 1-based. -/
def onPageChange (api : Api) (eventPage : Nat) (s : AppState) : AppState × List Toast :=
  fetchArtworks api (eventPage + 1) s

/-- Handler `onSelectionChange`: store the checked rows, mark every artwork of the
current page in the selection map according to membership in the event
value, and rebuild `selectedArtworkIds` from the entries mapped `true`. -/
def onSelectionChange (value : List Artwork) (s : AppState) : AppState :=
  let selectedItems := value
  let newSelectedRows :=
    s.artworks.foldl
      (fun m artwork =>
        RowMap.set m artwork.id (selectedItems.any (fun item => item.id == artwork.id)))
      s.selectedRows
  let newSelectedIds :=
    ((RowMap.entriesJS newSelectedRows).filter (fun p => p.2)).map (fun p => p.1)
  { s with
      selectedArtworks := selectedItems,
      selectedRows := newSelectedRows,
      selectedArtworkIds := newSelectedIds }

/-- Result of the fetch loop of `selectRows`: the selection map and id
list built so far, the toasts shown, the pages fetched (in order), and
the final `loading` flag. -/
structure LoopOut where
  rows : RowMap
  ids : List Nat
  toasts : List Toast
  fetched : List Nat
  loading : Bool
deriving Repr, DecidableEq

/-- The `while (remainingToSelect > 0)` loop of `selectRows`: fetch the
next page; stop on a rejected fetch (error toast), on a `null` or empty
payload; otherwise mark the prefix of length `min remaining (page length)`
and continue.  Each iteration sets `loading` and clears it in `finally`,
so `loading` is `false` on every path that ran an iteration. -/
def selectLoop (api : Api) (remaining : Nat) (nextPage : Nat) (rows : RowMap)
    (ids : List Nat) (loading : Bool) : LoopOut :=
  if hr : remaining = 0 then
    { rows := rows, ids := ids, toasts := [], fetched := [], loading := loading }
  else
    match api nextPage with
    | .error _ =>
        { rows := rows, ids := ids, toasts := [selectErrorToast],
          fetched := [nextPage], loading := false }
    | .ok r =>
        match r.data with
        | none =>
            { rows := rows, ids := ids, toasts := [], fetched := [nextPage],
              loading := false }
        | some l =>
            if hl : l.length = 0 then
              { rows := rows, ids := ids, toasts := [], fetched := [nextPage],
                loading := false }
            else
              let cnt := min remaining l.length
              let taken := l.take cnt
              let rest := selectLoop api (remaining - cnt) (nextPage + 1)
                  (taken.foldl (fun m a => RowMap.set m a.id true) rows)
                  (ids ++ taken.map (fun a => a.id)) false
              { rest with fetched := nextPage :: rest.fetched }
termination_by remaining
decreasing_by
  have h1 : 0 < remaining := Nat.pos_of_ne_zero hr
  have h2 : 0 < l.length := Nat.pos_of_ne_zero hl
  exact Nat.sub_lt h1 (lt_min h1 h2)

/-- Result of `selectRows`: the new state, toasts in order, pages fetched. -/
structure SelectOutcome where
  state : AppState
  toasts : List Toast
  fetched : List Nat
deriving Repr, DecidableEq

/-- Handler `selectRows`: warn and return on a non-positive count; otherwise mark
the first `min N (page length)` rows of the current page into a fresh map,
run the fetch loop for the remainder from page `currentPage + 1`, commit
the map and id list, recompute the current page's checked rows, and show
a success toast counting the collected ids. -/
def selectRows (api : Api) (s : AppState) : SelectOutcome :=
  if s.rowsToSelect ≤ 0 then
    { state := s, toasts := [warnToast], fetched := [] }
  else
    let currentPageCount := min s.rowsToSelect.toNat s.artworks.length
    let firstTaken := s.artworks.take currentPageCount
    let rows0 := firstTaken.foldl (fun m a => RowMap.set m a.id true) ([] : RowMap)
    let ids0 := firstTaken.map (fun a => a.id)
    let remainingToSelect := s.rowsToSelect.toNat - currentPageCount
    let out := selectLoop api remainingToSelect (s.currentPage + 1) rows0 ids0 s.loading
    let currentPageSelectedArtworks :=
      s.artworks.filter (fun a => RowMap.get out.rows a.id == some true)
    { state := { s with
        selectedRows := out.rows,
        selectedArtworkIds := out.ids,
        selectedArtworks := currentPageSelectedArtworks,
        loading := out.loading },
      toasts := out.toasts ++ [successToast out.ids.length],
      fetched := out.fetched }

/-- Helper `isRowSelected`: `!!selectedRows[artwork.id]`. -/
def isRowSelected (s : AppState) (artwork : Artwork) : Bool :=
  (RowMap.get s.selectedRows artwork.id).getD false

/-!
## The variant source file `src/unnamed/part_000`

The second source file differs from `src/src/App.tsx` only in comments,
`console.log` calls (and the named `catch (error)` binders they read).
Its handlers are embedded below over the same state and API model; the
refinement theorem proves them extensionally equal to the ones above.
-/

namespace Part0

/-- Handler `fetchArtworks` of `part_000` (logging dropped). -/
def fetchArtworks (api : Api) (page : Nat) (s : AppState) : AppState × List Toast :=
  match api page with
  | .ok r =>
      ({ s with
          artworks := r.data.getD [],
          totalRecords := r.pagination.total,
          currentPage := r.pagination.current_page,
          loading := false }, [])
  | .error _ =>
      ({ s with loading := false }, [fetchErrorToast])

/-- Handler `onPageChange` of `part_000`: logs the selection state, then fetches. -/
def onPageChange (api : Api) (eventPage : Nat) (s : AppState) : AppState × List Toast :=
  fetchArtworks api (eventPage + 1) s

/-- Handler `onSelectionChange` of `part_000` (logging dropped). -/
def onSelectionChange (value : List Artwork) (s : AppState) : AppState :=
  let selectedItems := value
  let newSelectedRows :=
    s.artworks.foldl
      (fun m artwork =>
        RowMap.set m artwork.id (selectedItems.any (fun item => item.id == artwork.id)))
      s.selectedRows
  let newSelectedIds :=
    ((RowMap.entriesJS newSelectedRows).filter (fun p => p.2)).map (fun p => p.1)
  { s with
      selectedArtworks := selectedItems,
      selectedRows := newSelectedRows,
      selectedArtworkIds := newSelectedIds }

/-- The `while (remainingToSelect > 0)` loop of `selectRows` in `part_000`. -/
def selectLoop (api : Api) (remaining : Nat) (nextPage : Nat) (rows : RowMap)
    (ids : List Nat) (loading : Bool) : LoopOut :=
  if hr : remaining = 0 then
    { rows := rows, ids := ids, toasts := [], fetched := [], loading := loading }
  else
    match api nextPage with
    | .error _ =>
        { rows := rows, ids := ids, toasts := [selectErrorToast],
          fetched := [nextPage], loading := false }
    | .ok r =>
        match r.data with
        | none =>
            { rows := rows, ids := ids, toasts := [], fetched := [nextPage],
              loading := false }
        | some l =>
            if hl : l.length = 0 then
              { rows := rows, ids := ids, toasts := [], fetched := [nextPage],
                loading := false }
            else
              let cnt := min remaining l.length
              let taken := l.take cnt
              let rest := selectLoop api (remaining - cnt) (nextPage + 1)
                  (taken.foldl (fun m a => RowMap.set m a.id true) rows)
                  (ids ++ taken.map (fun a => a.id)) false
              { rest with fetched := nextPage :: rest.fetched }
termination_by remaining
decreasing_by
  have h1 : 0 < remaining := Nat.pos_of_ne_zero hr
  have h2 : 0 < l.length := Nat.pos_of_ne_zero hl
  exact Nat.sub_lt h1 (lt_min h1 h2)

/-- Handler `selectRows` of `part_000` (logging dropped). -/
def selectRows (api : Api) (s : AppState) : SelectOutcome :=
  if s.rowsToSelect ≤ 0 then
    { state := s, toasts := [warnToast], fetched := [] }
  else
    let currentPageCount := min s.rowsToSelect.toNat s.artworks.length
    let firstTaken := s.artworks.take currentPageCount
    let rows0 := firstTaken.foldl (fun m a => RowMap.set m a.id true) ([] : RowMap)
    let ids0 := firstTaken.map (fun a => a.id)
    let remainingToSelect := s.rowsToSelect.toNat - currentPageCount
    let out := Part0.selectLoop api remainingToSelect (s.currentPage + 1) rows0 ids0 s.loading
    let currentPageSelectedArtworks :=
      s.artworks.filter (fun a => RowMap.get out.rows a.id == some true)
    { state := { s with
        selectedRows := out.rows,
        selectedArtworkIds := out.ids,
        selectedArtworks := currentPageSelectedArtworks,
        loading := out.loading },
      toasts := out.toasts ++ [successToast out.ids.length],
      fetched := out.fetched }

/-- Helper `isRowSelected` of `part_000`. -/
def isRowSelected (s : AppState) (artwork : Artwork) : Bool :=
  (RowMap.get s.selectedRows artwork.id).getD false

end Part0

/-!
## Lemmas about the selection map
-/

theorem RowMap.keys_nil : RowMap.keys [] = [] := rfl

theorem RowMap.keys_cons (p : Nat × Bool) (ps : RowMap) :
    RowMap.keys (p :: ps) = p.1 :: RowMap.keys ps := rfl

theorem RowMap.get_set_self (m : RowMap) (k : Nat) (v : Bool) :
    (RowMap.set m k v).get k = some v := by
  induction m with
  | nil => simp [RowMap.set, RowMap.get]
  | cons p ps ih =>
    by_cases h : p.1 = k
    · simp [RowMap.set, RowMap.get, h]
    · simp [RowMap.set, RowMap.get, h, ih]

theorem RowMap.get_set_ne (m : RowMap) {k k' : Nat} (v : Bool) (h : k' ≠ k) :
    (RowMap.set m k v).get k' = m.get k' := by
  induction m with
  | nil => simp [RowMap.set, RowMap.get, Ne.symm h]
  | cons p ps ih =>
    by_cases hp : p.1 = k
    · simp [RowMap.set, RowMap.get, hp, Ne.symm h]
    · simp only [RowMap.set, if_neg hp]
      by_cases hp' : p.1 = k'
      · simp [RowMap.get, hp']
      · simp [RowMap.get, hp', ih]

theorem RowMap.mem_keys_set (m : RowMap) (k k' : Nat) (v : Bool) :
    k' ∈ (RowMap.set m k v).keys ↔ k' = k ∨ k' ∈ m.keys := by
  induction m with
  | nil => simp [RowMap.set, RowMap.keys]
  | cons p ps ih =>
    by_cases h : p.1 = k
    · rw [RowMap.set, if_pos h]
      simp only [RowMap.keys_cons, List.mem_cons, h]
      tauto
    · rw [RowMap.set, if_neg h]
      simp only [RowMap.keys_cons, List.mem_cons, ih]
      tauto

theorem RowMap.nodup_keys_set (m : RowMap) (k : Nat) (v : Bool)
    (h : m.keys.Nodup) : (RowMap.set m k v).keys.Nodup := by
  induction m with
  | nil => simp [RowMap.set, RowMap.keys]
  | cons p ps ih =>
    rw [RowMap.keys_cons, List.nodup_cons] at h
    by_cases hp : p.1 = k
    · rw [RowMap.set, if_pos hp, RowMap.keys_cons, List.nodup_cons]
      exact ⟨hp ▸ h.1, h.2⟩
    · rw [RowMap.set, if_neg hp, RowMap.keys_cons, List.nodup_cons]
      refine ⟨?_, ih h.2⟩
      rw [RowMap.mem_keys_set]
      rintro (hc | hc)
      · exact hp hc
      · exact h.1 hc

theorem RowMap.get_mem {m : RowMap} {k : Nat} {v : Bool}
    (h : m.get k = some v) : (k, v) ∈ m := by
  induction m with
  | nil => simp [RowMap.get] at h
  | cons p ps ih =>
    by_cases hp : p.1 = k
    · rw [RowMap.get, if_pos hp, Option.some.injEq] at h
      refine List.mem_cons.mpr (Or.inl ?_)
      obtain ⟨a, b⟩ := p
      simp only at hp h
      rw [hp, h]
    · rw [RowMap.get, if_neg hp] at h
      exact List.mem_cons_of_mem _ (ih h)

theorem RowMap.mem_get {m : RowMap} {k : Nat} {v : Bool}
    (hn : m.keys.Nodup) (h : (k, v) ∈ m) : m.get k = some v := by
  induction m with
  | nil => simp at h
  | cons p ps ih =>
    rw [RowMap.keys_cons, List.nodup_cons] at hn
    rcases List.mem_cons.mp h with h1 | h1
    · rw [← h1]
      simp [RowMap.get]
    · have hk : k ∈ RowMap.keys ps := by
        have : (k, v).1 ∈ ps.map (fun p => p.1) := List.mem_map_of_mem _ h1
        exact this
      by_cases hp : p.1 = k
      · exact absurd (hp ▸ hk) hn.1
      · rw [RowMap.get, if_neg hp]
        exact ih hn.2 h1

theorem RowMap.mem_trueKeys (m : RowMap) (k : Nat) :
    k ∈ m.trueKeys ↔ (k, true) ∈ m := by
  simp only [RowMap.trueKeys, List.mem_map, List.mem_filter]
  constructor
  · rintro ⟨p, ⟨hm, hv⟩, hk⟩
    have : p = (k, true) := by
      cases p
      simp only at hv hk
      simp [hk, hv]
    exact this ▸ hm
  · intro hm
    exact ⟨(k, true), ⟨hm, rfl⟩, rfl⟩

theorem RowMap.nodup_trueKeys (m : RowMap) (h : m.keys.Nodup) :
    m.trueKeys.Nodup := by
  have hs : List.Sublist (m.filter (fun p => p.2)) m := List.filter_sublist m
  have hs2 : List.Sublist ((m.filter (fun p => p.2)).map (fun p => p.1))
      (m.map (fun p => p.1)) := hs.map (fun p => p.1)
  exact h.sublist hs2

theorem RowMap.perm_entriesJS (m : RowMap) : List.Perm (RowMap.entriesJS m) m :=
  List.perm_insertionSort _ m

/-!
## Lemmas about the marking folds

`selectRows` marks rows with `forEach` loops that set `artwork.id` to
`true`; `onSelectionChange` sets each displayed id to its membership in
the event value.  Both are `List.foldl` applications of `RowMap.set`.
-/

theorem get_foldl_mark (l : List Artwork) :
    ∀ (m : RowMap) (k : Nat),
      RowMap.get (l.foldl (fun m a => RowMap.set m a.id true) m) k =
        if l.any (fun a => a.id == k) then some true else m.get k := by
  induction l with
  | nil => intro m k; simp
  | cons a t ih =>
    intro m k
    simp only [List.foldl_cons, List.any_cons]
    rw [ih]
    by_cases ht : t.any (fun a => a.id == k) <;> by_cases ha : a.id = k
    · simp [ht, ha]
    · simp [ht, ha]
    · simp [ht, ha, RowMap.get_set_self]
    · simp [ht, ha, RowMap.get_set_ne m true (Ne.symm ha)]

theorem nodup_keys_foldl_mark (l : List Artwork) :
    ∀ m : RowMap, (RowMap.keys m).Nodup →
      (RowMap.keys (l.foldl (fun m a => RowMap.set m a.id true) m)).Nodup := by
  induction l with
  | nil => intro m h; simpa using h
  | cons a t ih =>
    intro m h
    simp only [List.foldl_cons]
    exact ih _ (RowMap.nodup_keys_set m a.id true h)

theorem get_foldl_sel (value : List Artwork) (l : List Artwork) :
    ∀ (m : RowMap) (k : Nat),
      RowMap.get
        (l.foldl
          (fun m artwork =>
            RowMap.set m artwork.id (value.any (fun item => item.id == artwork.id))) m) k =
        if l.any (fun a => a.id == k) then some (value.any (fun item => item.id == k))
        else m.get k := by
  induction l with
  | nil => intro m k; simp
  | cons a t ih =>
    intro m k
    simp only [List.foldl_cons, List.any_cons]
    rw [ih]
    by_cases ht : t.any (fun a => a.id == k) <;> by_cases ha : a.id = k
    · simp [ht, ha]
    · simp [ht, ha]
    · simp [ht, ha, RowMap.get_set_self]
    · simp [ht, ha, RowMap.get_set_ne m _ (Ne.symm ha)]

theorem nodup_keys_foldl_sel (value : List Artwork) (l : List Artwork) :
    ∀ m : RowMap, (RowMap.keys m).Nodup →
      (RowMap.keys
        (l.foldl
          (fun m artwork =>
            RowMap.set m artwork.id (value.any (fun item => item.id == artwork.id))) m)).Nodup := by
  induction l with
  | nil => intro m h; simpa using h
  | cons a t ih =>
    intro m h
    simp only [List.foldl_cons]
    exact ih _ (RowMap.nodup_keys_set m a.id _ h)

/-!
## Unfolding equations for the fetch loop

`selectLoop` is defined by well-founded recursion; the conditional
equations below drive every proof about it.
-/

theorem selectLoop_zero (api : Api) (p : Nat) (rows : RowMap) (ids : List Nat) (ld : Bool) :
    selectLoop api 0 p rows ids ld = ⟨rows, ids, [], [], ld⟩ := by
  unfold selectLoop
  simp

theorem selectLoop_err (api : Api) {rem : Nat} (p : Nat) (rows : RowMap) (ids : List Nat)
    (ld : Bool) (h : rem ≠ 0) {e : Unit} (he : api p = .error e) :
    selectLoop api rem p rows ids ld = ⟨rows, ids, [selectErrorToast], [p], false⟩ := by
  conv_lhs => unfold selectLoop
  rw [dif_neg h, he]

theorem selectLoop_nodata (api : Api) {rem : Nat} (p : Nat) (rows : RowMap) (ids : List Nat)
    (ld : Bool) (h : rem ≠ 0) {r : ApiResponse} (he : api p = .ok r) (hd : r.data = none) :
    selectLoop api rem p rows ids ld = ⟨rows, ids, [], [p], false⟩ := by
  conv_lhs => unfold selectLoop
  rw [dif_neg h, he]
  dsimp only
  rw [hd]

theorem selectLoop_empty (api : Api) {rem : Nat} (p : Nat) (rows : RowMap) (ids : List Nat)
    (ld : Bool) (h : rem ≠ 0) {r : ApiResponse} (he : api p = .ok r) (hd : r.data = some []) :
    selectLoop api rem p rows ids ld = ⟨rows, ids, [], [p], false⟩ := by
  conv_lhs => unfold selectLoop
  rw [dif_neg h, he]
  dsimp only
  rw [hd]
  simp

theorem selectLoop_step (api : Api) {rem : Nat} (p : Nat) (rows : RowMap) (ids : List Nat)
    (ld : Bool) (h : rem ≠ 0) {r : ApiResponse} {l : List Artwork}
    (he : api p = .ok r) (hd : r.data = some l) (hl : l.length ≠ 0) :
    selectLoop api rem p rows ids ld =
      { selectLoop api (rem - min rem l.length) (p + 1)
          ((l.take (min rem l.length)).foldl (fun m a => RowMap.set m a.id true) rows)
          (ids ++ (l.take (min rem l.length)).map (fun a => a.id)) false
        with fetched := p :: (selectLoop api (rem - min rem l.length) (p + 1)
          ((l.take (min rem l.length)).foldl (fun m a => RowMap.set m a.id true) rows)
          (ids ++ (l.take (min rem l.length)).map (fun a => a.id)) false).fetched } := by
  conv_lhs => unfold selectLoop
  rw [dif_neg h, he]
  dsimp only
  rw [hd]
  dsimp only
  rw [dif_neg hl]

theorem part0_selectLoop_zero (api : Api) (p : Nat) (rows : RowMap) (ids : List Nat)
    (ld : Bool) :
    Part0.selectLoop api 0 p rows ids ld = ⟨rows, ids, [], [], ld⟩ := by
  unfold Part0.selectLoop
  simp

theorem part0_selectLoop_err (api : Api) {rem : Nat} (p : Nat) (rows : RowMap)
    (ids : List Nat) (ld : Bool) (h : rem ≠ 0) {e : Unit} (he : api p = .error e) :
    Part0.selectLoop api rem p rows ids ld = ⟨rows, ids, [selectErrorToast], [p], false⟩ := by
  conv_lhs => unfold Part0.selectLoop
  rw [dif_neg h, he]

theorem part0_selectLoop_nodata (api : Api) {rem : Nat} (p : Nat) (rows : RowMap)
    (ids : List Nat) (ld : Bool) (h : rem ≠ 0) {r : ApiResponse} (he : api p = .ok r)
    (hd : r.data = none) :
    Part0.selectLoop api rem p rows ids ld = ⟨rows, ids, [], [p], false⟩ := by
  conv_lhs => unfold Part0.selectLoop
  rw [dif_neg h, he]
  dsimp only
  rw [hd]

theorem part0_selectLoop_empty (api : Api) {rem : Nat} (p : Nat) (rows : RowMap)
    (ids : List Nat) (ld : Bool) (h : rem ≠ 0) {r : ApiResponse} (he : api p = .ok r)
    (hd : r.data = some []) :
    Part0.selectLoop api rem p rows ids ld = ⟨rows, ids, [], [p], false⟩ := by
  conv_lhs => unfold Part0.selectLoop
  rw [dif_neg h, he]
  dsimp only
  rw [hd]
  simp

theorem part0_selectLoop_step (api : Api) {rem : Nat} (p : Nat) (rows : RowMap)
    (ids : List Nat) (ld : Bool) (h : rem ≠ 0) {r : ApiResponse} {l : List Artwork}
    (he : api p = .ok r) (hd : r.data = some l) (hl : l.length ≠ 0) :
    Part0.selectLoop api rem p rows ids ld =
      { Part0.selectLoop api (rem - min rem l.length) (p + 1)
          ((l.take (min rem l.length)).foldl (fun m a => RowMap.set m a.id true) rows)
          (ids ++ (l.take (min rem l.length)).map (fun a => a.id)) false
        with fetched := p :: (Part0.selectLoop api (rem - min rem l.length) (p + 1)
          ((l.take (min rem l.length)).foldl (fun m a => RowMap.set m a.id true) rows)
          (ids ++ (l.take (min rem l.length)).map (fun a => a.id)) false).fetched } := by
  conv_lhs => unfold Part0.selectLoop
  rw [dif_neg h, he]
  dsimp only
  rw [hd]
  dsimp only
  rw [dif_neg hl]

/-- The loops of the two source files compute identically. -/
theorem part0_selectLoop_agree (api : Api) : ∀ rem p rows ids ld,
    Part0.selectLoop api rem p rows ids ld = selectLoop api rem p rows ids ld := by
  intro rem
  induction rem using Nat.strong_induction_on with
  | _ rem ih =>
    intro p rows ids ld
    by_cases h : rem = 0
    · rw [h, part0_selectLoop_zero, selectLoop_zero]
    · cases he : api p with
      | error e => rw [part0_selectLoop_err api p rows ids ld h he,
          selectLoop_err api p rows ids ld h he]
      | ok r =>
        cases hd : r.data with
        | none => rw [part0_selectLoop_nodata api p rows ids ld h he hd,
            selectLoop_nodata api p rows ids ld h he hd]
        | some l =>
          by_cases hl : l.length = 0
          · rw [List.length_eq_zero] at hl
            rw [hl] at hd
            rw [part0_selectLoop_empty api p rows ids ld h he hd,
              selectLoop_empty api p rows ids ld h he hd]
          · rw [part0_selectLoop_step api p rows ids ld h he hd hl,
              selectLoop_step api p rows ids ld h he hd hl,
              ih (rem - min rem l.length)
                (Nat.sub_lt (Nat.pos_of_ne_zero h)
                  (lt_min (Nat.pos_of_ne_zero h) (Nat.pos_of_ne_zero hl)))]

/-- The loop performs one fetch per iteration; it iterates at most
`remaining` times. -/
theorem selectLoop_fetched_len (api : Api) : ∀ rem p rows ids ld,
    (selectLoop api rem p rows ids ld).fetched.length ≤ rem := by
  intro rem
  induction rem using Nat.strong_induction_on with
  | _ rem ih =>
    intro p rows ids ld
    by_cases h : rem = 0
    · rw [h, selectLoop_zero]
      simp
    · have h1 : 1 ≤ rem := Nat.pos_of_ne_zero h
      cases he : api p with
      | error e =>
        rw [selectLoop_err api p rows ids ld h he]
        simpa using h1
      | ok r =>
        cases hd : r.data with
        | none =>
          rw [selectLoop_nodata api p rows ids ld h he hd]
          simpa using h1
        | some l =>
          by_cases hl : l.length = 0
          · rw [List.length_eq_zero] at hl
            rw [hl] at hd
            rw [selectLoop_empty api p rows ids ld h he hd]
            simpa using h1
          · rw [selectLoop_step api p rows ids ld h he hd hl]
            have hlt : rem - min rem l.length < rem :=
              Nat.sub_lt (Nat.pos_of_ne_zero h)
                (lt_min (Nat.pos_of_ne_zero h) (Nat.pos_of_ne_zero hl))
            have := ih (rem - min rem l.length) hlt (p + 1)
              ((l.take (min rem l.length)).foldl (fun m a => RowMap.set m a.id true) rows)
              (ids ++ (l.take (min rem l.length)).map (fun a => a.id)) false
            simp only [List.length_cons]
            have hmin : 1 ≤ min rem l.length :=
              lt_min (Nat.pos_of_ne_zero h) (Nat.pos_of_ne_zero hl)
            omega

/-- The loop fetches consecutive pages starting at its first page. -/
theorem selectLoop_fetched_range (api : Api) : ∀ rem p rows ids ld,
    (selectLoop api rem p rows ids ld).fetched =
      List.range' p (selectLoop api rem p rows ids ld).fetched.length := by
  intro rem
  induction rem using Nat.strong_induction_on with
  | _ rem ih =>
    intro p rows ids ld
    by_cases h : rem = 0
    · rw [h, selectLoop_zero]
      rfl
    · cases he : api p with
      | error e =>
        rw [selectLoop_err api p rows ids ld h he]
        rfl
      | ok r =>
        cases hd : r.data with
        | none =>
          rw [selectLoop_nodata api p rows ids ld h he hd]
          rfl
        | some l =>
          by_cases hl : l.length = 0
          · rw [List.length_eq_zero] at hl
            rw [hl] at hd
            rw [selectLoop_empty api p rows ids ld h he hd]
            rfl
          · rw [selectLoop_step api p rows ids ld h he hd hl]
            have hlt : rem - min rem l.length < rem :=
              Nat.sub_lt (Nat.pos_of_ne_zero h)
                (lt_min (Nat.pos_of_ne_zero h) (Nat.pos_of_ne_zero hl))
            simp only [List.length_cons]
            rw [List.range'_succ]
            congr 1
            exact ih (rem - min rem l.length) hlt (p + 1) _ _ false


/-- The record ids carried by an API response (empty for a `null` payload). -/
def pageIds (r : ApiResponse) : List Nat :=
  (r.data.getD []).map (fun a => a.id)

/-- The number of records a page of the oracle supplies. -/
def pageLen (api : Api) (p : Nat) : Nat :=
  match api p with
  | .ok r => (r.data.getD []).length
  | .error _ => 0

/-- Total number of records supplied by `K` consecutive pages starting at
`page`. -/
def sumLens (api : Api) (page : Nat) : Nat → Nat
  | 0 => 0
  | K + 1 => pageLen api page + sumLens api (page + 1) K

/-- Each iteration takes at most `remaining` ids, so the loop adds at most
`rem` ids in total. -/
theorem selectLoop_ids_len_le (api : Api) : ∀ rem p rows ids ld,
    (selectLoop api rem p rows ids ld).ids.length ≤ ids.length + rem := by
  intro rem
  induction rem using Nat.strong_induction_on with
  | _ rem ih =>
    intro p rows ids ld
    by_cases h : rem = 0
    · rw [h, selectLoop_zero]
      simp
    · cases he : api p with
      | error e =>
        rw [selectLoop_err api p rows ids ld h he]
        simp
      | ok r =>
        cases hd : r.data with
        | none =>
          rw [selectLoop_nodata api p rows ids ld h he hd]
          simp
        | some l =>
          by_cases hl : l.length = 0
          · rw [List.length_eq_zero] at hl
            rw [hl] at hd
            rw [selectLoop_empty api p rows ids ld h he hd]
            simp
          · rw [selectLoop_step api p rows ids ld h he hd hl]
            dsimp only
            have hlt : rem - min rem l.length < rem :=
              Nat.sub_lt (Nat.pos_of_ne_zero h)
                (lt_min (Nat.pos_of_ne_zero h) (Nat.pos_of_ne_zero hl))
            have hrec := ih (rem - min rem l.length) hlt (p + 1)
              ((l.take (min rem l.length)).foldl (fun m a => RowMap.set m a.id true) rows)
              (ids ++ (l.take (min rem l.length)).map (fun a => a.id)) false
            simp only [List.length_append, List.length_map, List.length_take] at hrec
            have hmin : min rem l.length ≤ rem := Nat.min_le_left _ _
            have hmin2 : min (min rem l.length) l.length = min rem l.length := by
              omega
            omega

/-- When enough records are available on consecutive non-empty pages, the
loop takes exactly `rem` additional ids. -/
theorem selectLoop_ids_len_exact (api : Api) : ∀ K rem p rows ids ld,
    (∀ q, p ≤ q → q < p + K → ∃ r l, api q = .ok r ∧ r.data = some l ∧ l ≠ []) →
    rem ≤ sumLens api p K →
    (selectLoop api rem p rows ids ld).ids.length = ids.length + rem := by
  intro K
  induction K with
  | zero =>
    intro rem p rows ids ld hall hsum
    have h0 : rem = 0 := by
      have : sumLens api p 0 = 0 := rfl
      omega
    rw [h0, selectLoop_zero]
    simp
  | succ K ih =>
    intro rem p rows ids ld hall hsum
    by_cases h : rem = 0
    · rw [h, selectLoop_zero]
      simp
    · obtain ⟨r, l, he, hd, hl⟩ := hall p (le_refl p) (by omega)
      have hl0 : l.length ≠ 0 := by
        simpa using hl
      rw [selectLoop_step api p rows ids ld h he hd hl0]
      dsimp only
      have hplen : pageLen api p = l.length := by
        simp [pageLen, he, hd]
      have hsum1 : sumLens api p (K + 1) = pageLen api p + sumLens api (p + 1) K := rfl
      have hrec := ih (rem - min rem l.length) (p + 1)
        ((l.take (min rem l.length)).foldl (fun m a => RowMap.set m a.id true) rows)
        (ids ++ (l.take (min rem l.length)).map (fun a => a.id)) false
        (by
          intro q hq1 hq2
          exact hall q (by omega) (by omega))
        (by omega)
      rw [hrec]
      simp only [List.length_append, List.length_map, List.length_take]
      have hmin : min rem l.length ≤ rem := Nat.min_le_left _ _
      have hmin2 : min (min rem l.length) l.length = min rem l.length := by
        omega
      omega

/-- The loop preserves uniqueness of the selection-map keys. -/
theorem selectLoop_keys_nodup (api : Api) : ∀ rem p rows ids ld,
    (RowMap.keys rows).Nodup →
    (RowMap.keys (selectLoop api rem p rows ids ld).rows).Nodup := by
  intro rem
  induction rem using Nat.strong_induction_on with
  | _ rem ih =>
    intro p rows ids ld hn
    by_cases h : rem = 0
    · rw [h, selectLoop_zero]
      exact hn
    · cases he : api p with
      | error e =>
        rw [selectLoop_err api p rows ids ld h he]
        exact hn
      | ok r =>
        cases hd : r.data with
        | none =>
          rw [selectLoop_nodata api p rows ids ld h he hd]
          exact hn
        | some l =>
          by_cases hl : l.length = 0
          · rw [List.length_eq_zero] at hl
            rw [hl] at hd
            rw [selectLoop_empty api p rows ids ld h he hd]
            exact hn
          · rw [selectLoop_step api p rows ids ld h he hd hl]
            dsimp only
            have hlt : rem - min rem l.length < rem :=
              Nat.sub_lt (Nat.pos_of_ne_zero h)
                (lt_min (Nat.pos_of_ne_zero h) (Nat.pos_of_ne_zero hl))
            exact ih (rem - min rem l.length) hlt (p + 1) _ _ false
              (nodup_keys_foldl_mark _ rows hn)

/-- Every id the loop marks `true` in the selection map is recorded in the
id list. -/
theorem selectLoop_true_sub (api : Api) : ∀ rem p rows ids ld,
    (∀ k, RowMap.get rows k = some true → k ∈ ids) →
    ∀ k, RowMap.get (selectLoop api rem p rows ids ld).rows k = some true →
      k ∈ (selectLoop api rem p rows ids ld).ids := by
  intro rem
  induction rem using Nat.strong_induction_on with
  | _ rem ih =>
    intro p rows ids ld hsub
    by_cases h : rem = 0
    · rw [h, selectLoop_zero]
      exact hsub
    · cases he : api p with
      | error e =>
        rw [selectLoop_err api p rows ids ld h he]
        exact hsub
      | ok r =>
        cases hd : r.data with
        | none =>
          rw [selectLoop_nodata api p rows ids ld h he hd]
          exact hsub
        | some l =>
          by_cases hl : l.length = 0
          · rw [List.length_eq_zero] at hl
            rw [hl] at hd
            rw [selectLoop_empty api p rows ids ld h he hd]
            exact hsub
          · rw [selectLoop_step api p rows ids ld h he hd hl]
            dsimp only
            have hlt : rem - min rem l.length < rem :=
              Nat.sub_lt (Nat.pos_of_ne_zero h)
                (lt_min (Nat.pos_of_ne_zero h) (Nat.pos_of_ne_zero hl))
            refine ih (rem - min rem l.length) hlt (p + 1) _ _ false ?_
            intro k hk
            rw [get_foldl_mark] at hk
            by_cases hany : (l.take (min rem l.length)).any (fun a => a.id == k)
            · refine List.mem_append.mpr (Or.inr ?_)
              rcases List.any_eq_true.mp hany with ⟨a, ha, hak⟩
              exact List.mem_map.mpr ⟨a, ha, by simpa using hak⟩
            · rw [if_neg hany] at hk
              exact List.mem_append.mpr (Or.inl (hsub k hk))

/-- Invariant preservation through the fetch loop: when all pages the loop
may fetch carry ids that are pairwise distinct, mutually disjoint, and
disjoint from the ids already collected, the loop keeps the selection-map
keys unique, the id list duplicate-free, and the id list equal (as a set)
to the ids mapped `true`. -/
theorem selectLoop_inv (api : Api) : ∀ rem p rows ids ld,
    (RowMap.keys rows).Nodup →
    ids.Nodup →
    (∀ k, k ∈ ids ↔ RowMap.get rows k = some true) →
    (∀ q r, p ≤ q → api q = .ok r → (pageIds r).Nodup) →
    (∀ q1 q2 r1 r2, p ≤ q1 → p ≤ q2 → q1 ≠ q2 → api q1 = .ok r1 → api q2 = .ok r2 →
      ∀ i, i ∈ pageIds r1 → i ∉ pageIds r2) →
    (∀ q r, p ≤ q → api q = .ok r → ∀ i, i ∈ ids → i ∉ pageIds r) →
    (RowMap.keys (selectLoop api rem p rows ids ld).rows).Nodup ∧
    (selectLoop api rem p rows ids ld).ids.Nodup ∧
    (∀ k, k ∈ (selectLoop api rem p rows ids ld).ids ↔
      RowMap.get (selectLoop api rem p rows ids ld).rows k = some true) := by
  intro rem
  induction rem using Nat.strong_induction_on with
  | _ rem ih =>
    intro p rows ids ld hkn hidn hiff hnodup hdisj hfut
    by_cases h : rem = 0
    · rw [h, selectLoop_zero]
      exact ⟨hkn, hidn, hiff⟩
    · cases he : api p with
      | error e =>
        rw [selectLoop_err api p rows ids ld h he]
        exact ⟨hkn, hidn, hiff⟩
      | ok r =>
        cases hd : r.data with
        | none =>
          rw [selectLoop_nodata api p rows ids ld h he hd]
          exact ⟨hkn, hidn, hiff⟩
        | some l =>
          by_cases hl : l.length = 0
          · rw [List.length_eq_zero] at hl
            rw [hl] at hd
            rw [selectLoop_empty api p rows ids ld h he hd]
            exact ⟨hkn, hidn, hiff⟩
          · rw [selectLoop_step api p rows ids ld h he hd hl]
            dsimp only
            have hlt : rem - min rem l.length < rem :=
              Nat.sub_lt (Nat.pos_of_ne_zero h)
                (lt_min (Nat.pos_of_ne_zero h) (Nat.pos_of_ne_zero hl))
            have hpids : pageIds r = l.map (fun a => a.id) := by
              simp [pageIds, hd]
            have htsl : List.Sublist
                ((l.take (min rem l.length)).map (fun a => a.id))
                (l.map (fun a => a.id)) :=
              (List.take_sublist _ l).map (fun a => a.id)
            have htknodup : ((l.take (min rem l.length)).map (fun a => a.id)).Nodup := by
              have := hnodup p r (le_refl p) he
              rw [hpids] at this
              exact this.sublist htsl
            have htbig : ∀ i, i ∈ (l.take (min rem l.length)).map (fun a => a.id) →
                i ∈ pageIds r := by
              intro i hi
              rw [hpids]
              exact htsl.subset hi
            refine ih (rem - min rem l.length) hlt (p + 1) _ _ false
              (nodup_keys_foldl_mark _ rows hkn) ?_ ?_ ?_ ?_ ?_
            · refine hidn.append htknodup ?_
              intro i hi hit
              exact hfut p r (le_refl p) he i hi (htbig i hit)
            · intro k
              rw [List.mem_append, get_foldl_mark]
              by_cases hany : (l.take (min rem l.length)).any (fun a => a.id == k)
              · rw [if_pos hany]
                constructor
                · intro _
                  rfl
                · intro _
                  refine Or.inr ?_
                  rcases List.any_eq_true.mp hany with ⟨a, ha, hak⟩
                  exact List.mem_map.mpr ⟨a, ha, by simpa using hak⟩
              · rw [if_neg hany]
                constructor
                · rintro (hk | hk)
                  · exact (hiff k).mp hk
                  · exfalso
                    rcases List.mem_map.mp hk with ⟨a, ha, hak⟩
                    exact hany (List.any_eq_true.mpr ⟨a, ha, by simpa using hak⟩)
                · intro hk
                  exact Or.inl ((hiff k).mpr hk)
            · intro q r2 hq he2
              exact hnodup q r2 (by omega) he2
            · intro q1 q2 r1 r2 hq1 hq2 hne he1 he2
              exact hdisj q1 q2 r1 r2 (by omega) (by omega) hne he1 he2
            · intro q r2 hq he2 i hi
              rcases List.mem_append.mp hi with hi2 | hi2
              · exact hfut q r2 (by omega) he2 i hi2
              · intro hmem
                exact hdisj p q r r2 (le_refl p) (by omega) (by omega) he he2 i
                  (htbig i hi2) hmem

/-!
## Reference formulation of the bulk select (from the specification text)
-/

/-- The records a page supplies, as seen by the select loop: a rejected
fetch never yields records, and a `null` payload supplies none. -/
def pageOf (api : Api) (p : Nat) : List Artwork :=
  match api p with
  | .ok r => r.data.getD []
  | .error _ => []

/-- Reference loop written from the specification sentence "repeatedly
fetch the next page and take a prefix until the requested count is
reached or the API returns no more data": starting at `page`, take from
each page the prefix of length `min remaining (page length)`, stopping
when the count is reached or a page carries no data.  Returns the ids
taken and the pages fetched, in order. -/
def claimLoop (pageOf : Nat → List Artwork) (remaining page : Nat) : List Nat × List Nat :=
  if hr : remaining = 0 then ([], [])
  else
    let l := pageOf page
    if hl : l.length = 0 then ([], [page])
    else
      let cnt := min remaining l.length
      let rest := claimLoop pageOf (remaining - cnt) (page + 1)
      ((l.take cnt).map (fun a => a.id) ++ rest.1, page :: rest.2)
termination_by remaining
decreasing_by
  have h1 : 0 < remaining := Nat.pos_of_ne_zero hr
  have h2 : 0 < (pageOf page).length := Nat.pos_of_ne_zero hl
  exact Nat.sub_lt h1 (lt_min h1 h2)

theorem claimLoop_zero (pageOf : Nat → List Artwork) (page : Nat) :
    claimLoop pageOf 0 page = ([], []) := by
  unfold claimLoop
  simp

theorem claimLoop_out (pageOf : Nat → List Artwork) {remaining : Nat} (page : Nat)
    (h : remaining ≠ 0) (hl : (pageOf page).length = 0) :
    claimLoop pageOf remaining page = ([], [page]) := by
  conv_lhs => unfold claimLoop
  rw [dif_neg h, dif_pos hl]

theorem claimLoop_step (pageOf : Nat → List Artwork) {remaining : Nat} (page : Nat)
    (h : remaining ≠ 0) (hl : (pageOf page).length ≠ 0) :
    claimLoop pageOf remaining page =
      (((pageOf page).take (min remaining (pageOf page).length)).map (fun a => a.id) ++
          (claimLoop pageOf (remaining - min remaining (pageOf page).length) (page + 1)).1,
        page :: (claimLoop pageOf (remaining - min remaining (pageOf page).length) (page + 1)).2) := by
  conv_lhs => unfold claimLoop
  rw [dif_neg h, dif_neg hl]

/-- Ids accumulated by `j` successful loop iterations starting at `page`
with `rem` rows still wanted: each page contributes the prefix of length
`min remaining (page length)`. -/
def partialIds (api : Api) : Nat → Nat → Nat → List Nat
  | _, _, 0 => []
  | rem, p, j + 1 =>
      ((pageOf api p).take (min rem (pageOf api p).length)).map (fun a => a.id) ++
        partialIds api (rem - min rem (pageOf api p).length) (p + 1) j

/-- Selection map accumulated by `j` successful loop iterations: the same
prefixes marked `true`, page by page. -/
def partialRows (api : Api) : Nat → Nat → Nat → RowMap → RowMap
  | _, _, 0, m => m
  | rem, p, j + 1, m =>
      partialRows api (rem - min rem (pageOf api p).length) (p + 1) j
        (((pageOf api p).take (min rem (pageOf api p).length)).foldl
          (fun m a => RowMap.set m a.id true) m)

/-- When the fetch of page `p + j` rejects after `j` non-empty pages that
leave the remaining count positive, the loop stops at the failed page
(fetched once, nothing beyond), shows the error toast, and returns the
rows and ids accumulated from the `j` pages fetched before the failure. -/
theorem selectLoop_error_after (api : Api) (e : Unit) : ∀ j rem p rows ids ld,
    (∀ q, p ≤ q → q < p + j → ∃ r l, api q = .ok r ∧ r.data = some l ∧ l ≠ []) →
    sumLens api p j < rem →
    api (p + j) = .error e →
    selectLoop api rem p rows ids ld =
      { rows := partialRows api rem p j rows,
        ids := ids ++ partialIds api rem p j,
        toasts := [selectErrorToast],
        fetched := List.range' p (j + 1),
        loading := false } := by
  intro j
  induction j with
  | zero =>
    intro rem p rows ids ld hsupply hrem herr
    have h0 : rem ≠ 0 := by
      have hs : sumLens api p 0 = 0 := rfl
      omega
    rw [selectLoop_err api p rows ids ld h0 (by simpa using herr)]
    simp [partialRows, partialIds]
  | succ j ih =>
    intro rem p rows ids ld hsupply hrem herr
    obtain ⟨r, l, he, hd, hl⟩ := hsupply p (le_refl p) (by omega)
    have hl0 : l.length ≠ 0 := by
      simpa using hl
    have hs : sumLens api p (j + 1) = pageLen api p + sumLens api (p + 1) j := rfl
    have hrem0 : rem ≠ 0 := by omega
    rw [selectLoop_step api p rows ids ld hrem0 he hd hl0]
    have hp : pageOf api p = l := by
      simp [pageOf, he, hd]
    have hplen : pageLen api p = l.length := by
      simp [pageLen, he, hd]
    have hmin : min rem l.length ≤ l.length := Nat.min_le_right _ _
    have hrec := ih (rem - min rem l.length) (p + 1)
      ((l.take (min rem l.length)).foldl (fun m a => RowMap.set m a.id true) rows)
      (ids ++ (l.take (min rem l.length)).map (fun a => a.id)) false
      (fun q hq1 hq2 => hsupply q (by omega) (by omega))
      (by omega)
      (by
        have hpj : p + 1 + j = p + (j + 1) := by omega
        rw [hpj]
        exact herr)
    rw [hrec]
    have hR : partialRows api rem p (j + 1) rows =
        partialRows api (rem - min rem l.length) (p + 1) j
          ((l.take (min rem l.length)).foldl (fun m a => RowMap.set m a.id true) rows) := by
      conv_lhs => rw [partialRows]
      rw [hp]
    have hI : partialIds api rem p (j + 1) =
        (l.take (min rem l.length)).map (fun a => a.id) ++
          partialIds api (rem - min rem l.length) (p + 1) j := by
      conv_lhs => rw [partialIds]
      rw [hp]
    rw [hR, hI, ← List.append_assoc]
    dsimp only
    conv_rhs => rw [List.range'_succ]

/-- When every page the loop may touch responds, the source loop collects
exactly the ids and pages described by the reference loop. -/
theorem selectLoop_claim_agree (api : Api) : ∀ rem p rows ids ld,
    (∀ q, p ≤ q → ∃ r, api q = .ok r) →
    (selectLoop api rem p rows ids ld).ids = ids ++ (claimLoop (pageOf api) rem p).1 ∧
    (selectLoop api rem p rows ids ld).fetched = (claimLoop (pageOf api) rem p).2 := by
  intro rem
  induction rem using Nat.strong_induction_on with
  | _ rem ih =>
    intro p rows ids ld hok
    by_cases h : rem = 0
    · rw [h, selectLoop_zero, claimLoop_zero]
      simp
    · obtain ⟨r, he⟩ := hok p (le_refl p)
      cases hd : r.data with
      | none =>
        have hp : pageOf api p = [] := by
          simp [pageOf, he, hd]
        rw [selectLoop_nodata api p rows ids ld h he hd,
          claimLoop_out (pageOf api) p h (by rw [hp]; rfl)]
        simp
      | some l =>
        have hp : pageOf api p = l := by
          simp [pageOf, he, hd]
        by_cases hl : l.length = 0
        · rw [List.length_eq_zero] at hl
          rw [hl] at hd hp
          rw [selectLoop_empty api p rows ids ld h he hd,
            claimLoop_out (pageOf api) p h (by rw [hp]; rfl)]
          simp
        · have hlt : rem - min rem l.length < rem :=
            Nat.sub_lt (Nat.pos_of_ne_zero h)
              (lt_min (Nat.pos_of_ne_zero h) (Nat.pos_of_ne_zero hl))
          have hrec := ih (rem - min rem l.length) hlt (p + 1)
            ((l.take (min rem l.length)).foldl (fun m a => RowMap.set m a.id true) rows)
            (ids ++ (l.take (min rem l.length)).map (fun a => a.id)) false
            (fun q hq => hok q (by omega))
          rw [selectLoop_step api p rows ids ld h he hd hl,
            claimLoop_step (pageOf api) p h (by rw [hp]; exact hl)]
          dsimp only
          rw [hp]
          constructor
          · rw [hrec.1, List.append_assoc]
          · rw [hrec.2]

/-- The list `selectedArtworkIds` as rebuilt by `onSelectionChange` is the list of
`true` keys of the sorted entry enumeration. -/
theorem trueKeys_entriesJS (m : RowMap) (hn : (RowMap.keys m).Nodup) :
    (RowMap.trueKeys (RowMap.entriesJS m)).Nodup ∧
    (∀ k, k ∈ RowMap.trueKeys (RowMap.entriesJS m) ↔ RowMap.get m k = some true) := by
  have hperm : List.Perm (RowMap.entriesJS m) m := RowMap.perm_entriesJS m
  have hkeys : (RowMap.keys (RowMap.entriesJS m)).Nodup := by
    have hp : List.Perm (List.map (fun p => p.1) (RowMap.entriesJS m))
        (List.map (fun p => p.1) m) :=
      hperm.map (fun p => p.1)
    exact hp.nodup_iff.mpr hn
  refine ⟨RowMap.nodup_trueKeys _ hkeys, ?_⟩
  intro k
  rw [RowMap.mem_trueKeys]
  constructor
  · intro hmem
    exact RowMap.mem_get hn (hperm.mem_iff.mp hmem)
  · intro hget
    exact hperm.mem_iff.mpr (RowMap.get_mem hget)

/-- Marking a list of artworks into an empty map selects exactly their ids. -/
theorem mark_from_nil (l : List Artwork) (k : Nat) :
    RowMap.get (l.foldl (fun m a => RowMap.set m a.id true) []) k = some true ↔
      k ∈ l.map (fun a => a.id) := by
  rw [get_foldl_mark]
  by_cases hany : l.any (fun a => a.id == k)
  · rw [if_pos hany]
    rcases List.any_eq_true.mp hany with ⟨a, ha, hak⟩
    constructor
    · intro _
      exact List.mem_map.mpr ⟨a, ha, by simpa using hak⟩
    · intro _
      rfl
  · rw [if_neg hany]
    simp only [RowMap.get]
    constructor
    · intro hc
      exact absurd hc (by simp)
    · intro hc
      rcases List.mem_map.mp hc with ⟨a, ha, hak⟩
      exact absurd (List.any_eq_true.mpr ⟨a, ha, by simpa using hak⟩) hany

/-- Unfolding of `selectRows` under a positive requested count. -/
theorem selectRows_pos (api : Api) (s : AppState) (h : 0 < s.rowsToSelect) :
    selectRows api s =
      (let cpc := min s.rowsToSelect.toNat s.artworks.length
       let out := selectLoop api (s.rowsToSelect.toNat - cpc) (s.currentPage + 1)
         ((s.artworks.take cpc).foldl (fun m a => RowMap.set m a.id true) [])
         ((s.artworks.take cpc).map (fun a => a.id)) s.loading
       { state := { s with
           selectedRows := out.rows,
           selectedArtworkIds := out.ids,
           selectedArtworks := s.artworks.filter (fun a => RowMap.get out.rows a.id == some true),
           loading := out.loading },
         toasts := out.toasts ++ [successToast out.ids.length],
         fetched := out.fetched }) := by
  rw [selectRows, if_neg (not_le.mpr h)]

/-!
## Invariant predicates
-/

/-- The selection invariant: selection-map keys are unique, the id list
is duplicate-free, and the id list equals (as a set) the ids mapped
`true` in the selection map. -/
def SelInv (s : AppState) : Prop :=
  (RowMap.keys s.selectedRows).Nodup ∧
  s.selectedArtworkIds.Nodup ∧
  (∀ k, k ∈ s.selectedArtworkIds ↔ RowMap.get s.selectedRows k = some true)

/-- Hypothesis that every record returned by the API carries an identifier
distinct from all others seen: current-page ids are distinct, ids of any page the
select loop can fetch are distinct, disjoint from the current page, and
disjoint across distinct pages. -/
def ApiDistinct (api : Api) (s : AppState) : Prop :=
  (s.artworks.map (fun a => a.id)).Nodup ∧
  (∀ p r, s.currentPage < p → api p = .ok r → (pageIds r).Nodup) ∧
  (∀ p r, s.currentPage < p → api p = .ok r → ∀ a, a ∈ s.artworks → a.id ∉ pageIds r) ∧
  (∀ p q rp rq, s.currentPage < p → s.currentPage < q → p ≠ q →
    api p = .ok rp → api q = .ok rq → ∀ i, i ∈ pageIds rp → i ∉ pageIds rq)

/-- The loop invariant holds for the loop as started by `selectRows`:
fresh map and id list seeded from a prefix of the current page. -/
theorem selectRows_inv_core (api : Api) (s : AppState) (hd : ApiDistinct api s)
    (rem cpc : Nat) (ld : Bool) :
    (RowMap.keys (selectLoop api rem (s.currentPage + 1)
      ((s.artworks.take cpc).foldl (fun m a => RowMap.set m a.id true) [])
      ((s.artworks.take cpc).map (fun a => a.id)) ld).rows).Nodup ∧
    (selectLoop api rem (s.currentPage + 1)
      ((s.artworks.take cpc).foldl (fun m a => RowMap.set m a.id true) [])
      ((s.artworks.take cpc).map (fun a => a.id)) ld).ids.Nodup ∧
    (∀ k, k ∈ (selectLoop api rem (s.currentPage + 1)
      ((s.artworks.take cpc).foldl (fun m a => RowMap.set m a.id true) [])
      ((s.artworks.take cpc).map (fun a => a.id)) ld).ids ↔
      RowMap.get (selectLoop api rem (s.currentPage + 1)
        ((s.artworks.take cpc).foldl (fun m a => RowMap.set m a.id true) [])
        ((s.artworks.take cpc).map (fun a => a.id)) ld).rows k = some true) := by
  obtain ⟨hart, hpn, hcross, hpp⟩ := hd
  apply selectLoop_inv
  · exact nodup_keys_foldl_mark _ [] (by simp [RowMap.keys])
  · exact hart.sublist ((List.take_sublist cpc s.artworks).map (fun a => a.id))
  · intro k
    exact (mark_from_nil _ k).symm
  · intro q r hq he
    exact hpn q r (by omega) he
  · intro q1 q2 r1 r2 hq1 hq2 hne he1 he2
    exact hpp q1 q2 r1 r2 (by omega) (by omega) hne he1 he2
  · intro q r hq he i hi
    rcases List.mem_map.mp hi with ⟨a, ha, hai⟩
    rw [← hai]
    exact hcross q r (by omega) he a (List.take_subset cpc s.artworks ha)

/-!
## Concrete fixtures used by the witnesses and the counterexample
-/

/-- A concrete artwork with a given id. -/
def wArt (n : Nat) : Artwork :=
  { id := n, title := "t", place_of_origin := "o", artist_display := "d",
    inscriptions := "i", date_start := 0, date_end := 0 }

/-- A concrete state: page 1 shows two artworks, nothing selected,
requested count 2. -/
def wState : AppState :=
  { artworks := [wArt 1, wArt 2], totalRecords := 24, loading := false,
    currentPage := 1, selectedArtworks := [], selectedRows := [],
    rowsToSelect := 2, selectedArtworkIds := [] }

/-- A concrete state whose current page holds a single artwork. -/
def cState : AppState :=
  { artworks := [wArt 1], totalRecords := 24, loading := false,
    currentPage := 1, selectedArtworks := [], selectedRows := [],
    rowsToSelect := 2, selectedArtworkIds := [] }

/-- An oracle whose every fetch rejects. -/
def errApi : Api := fun _ => .error ()

/-- An oracle that always responds with an empty page. -/
def emptyApi : Api := fun p =>
  .ok { data := some [], pagination := { total := 0, current_page := p } }

theorem selInv_wState : SelInv wState := by
  refine ⟨by decide, by decide, ?_⟩
  intro k
  simp [wState, RowMap.get]

theorem apiDistinct_empty_wState : ApiDistinct emptyApi wState := by
  refine ⟨by decide, ?_, ?_, ?_⟩
  · intro p r hp he
    simp only [emptyApi, Except.ok.injEq] at he
    rw [← he]
    simp [pageIds]
  · intro p r hp he a ha
    simp only [emptyApi, Except.ok.injEq] at he
    rw [← he]
    simp [pageIds]
  · intro p q rp rq hp hq hne hep heq i hi
    simp only [emptyApi, Except.ok.injEq] at hep
    rw [← hep] at hi
    simp [pageIds] at hi

/-!
## The claims
-/

/-- C4: when the page fetch in `fetchArtworks` fails, an error toast is
shown, `loading` becomes `false`, and everything else — `artworks`,
`totalRecords`, `currentPage`, and the selection state — is unchanged. -/
theorem C4_fetch_error_state_unchanged (api : Api) (page : Nat) (s : AppState)
    (e : Unit) (h : api page = .error e) :
    fetchArtworks api page s = ({ s with loading := false }, [fetchErrorToast]) := by
  simp [fetchArtworks, h]

theorem C4_witness :
    errApi 1 = .error () ∧
    fetchArtworks errApi 1 wState = ({ wState with loading := false }, [fetchErrorToast]) :=
  ⟨rfl, C4_fetch_error_state_unchanged errApi 1 wState () rfl⟩

/-- C5: `fetchArtworks` (success or failure) never touches the selection
state: `selectedRows`, `selectedArtworkIds`, `selectedArtworks`, and
`rowsToSelect` are returned exactly as they were. -/
theorem C5_fetch_preserves_selection (api : Api) (page : Nat) (s : AppState) :
    (fetchArtworks api page s).1.selectedRows = s.selectedRows ∧
    (fetchArtworks api page s).1.selectedArtworkIds = s.selectedArtworkIds ∧
    (fetchArtworks api page s).1.selectedArtworks = s.selectedArtworks ∧
    (fetchArtworks api page s).1.rowsToSelect = s.rowsToSelect := by
  cases h : api page <;> simp [fetchArtworks, h]

/-- C7: the select loop terminates, fetching at most `rowsToSelect` pages
(each iteration performs exactly one fetch and either takes at least one
row or exits). -/
theorem C7_loop_bounded (api : Api) (s : AppState) :
    (selectRows api s).fetched.length ≤ s.rowsToSelect.toNat := by
  by_cases h : s.rowsToSelect ≤ 0
  · rw [selectRows, if_pos h]
    simp
  · have hpos : 0 < s.rowsToSelect := by omega
    rw [selectRows_pos api s hpos]
    dsimp only
    have hb := selectLoop_fetched_len api
      (s.rowsToSelect.toNat - min s.rowsToSelect.toNat s.artworks.length)
      (s.currentPage + 1)
      ((s.artworks.take (min s.rowsToSelect.toNat s.artworks.length)).foldl
        (fun m a => RowMap.set m a.id true) [])
      ((s.artworks.take (min s.rowsToSelect.toNat s.artworks.length)).map
        (fun a => a.id)) s.loading
    omega

/-- C8: a non-positive requested count only produces the warning toast:
no page is fetched and the state (selection included) is returned
untouched. -/
theorem C8_nonpositive_guard (api : Api) (s : AppState) (h : s.rowsToSelect ≤ 0) :
    selectRows api s = { state := s, toasts := [warnToast], fetched := [] } := by
  rw [selectRows, if_pos h]

theorem C8_witness :
    ({ wState with rowsToSelect := 0 } : AppState).rowsToSelect ≤ 0 ∧
    selectRows errApi { wState with rowsToSelect := 0 } =
      { state := { wState with rowsToSelect := 0 }, toasts := [warnToast], fetched := [] } :=
  ⟨by decide, C8_nonpositive_guard errApi { wState with rowsToSelect := 0 } (by decide)⟩

theorem onSelectionChange_rows (value : List Artwork) (s : AppState) :
    (onSelectionChange value s).selectedRows =
      s.artworks.foldl
        (fun m artwork =>
          RowMap.set m artwork.id (value.any (fun item => item.id == artwork.id)))
        s.selectedRows := rfl

/-- C9: `onSelectionChange` rewrites the selection entry of every id on
the displayed page (to its membership in the event value) and leaves the
entry of every other id untouched. -/
theorem C9_selection_change_frame (value : List Artwork) (s : AppState) :
    (∀ a, a ∈ s.artworks →
      (RowMap.get (onSelectionChange value s).selectedRows a.id = some true ↔
        a.id ∈ value.map (fun item => item.id))) ∧
    (∀ k, (∀ a, a ∈ s.artworks → a.id ≠ k) →
      RowMap.get (onSelectionChange value s).selectedRows k =
        RowMap.get s.selectedRows k) := by
  constructor
  · intro a ha
    rw [onSelectionChange_rows, get_foldl_sel,
      if_pos (List.any_eq_true.mpr ⟨a, ha, by simp⟩)]
    constructor
    · intro hsome
      have hany : value.any (fun item => item.id == a.id) = true :=
        Option.some.injEq _ _ ▸ hsome ▸ rfl
      rcases List.any_eq_true.mp hany with ⟨b, hb, hbeq⟩
      exact List.mem_map.mpr ⟨b, hb, by simpa using hbeq⟩
    · intro hmem
      rcases List.mem_map.mp hmem with ⟨b, hb, hbid⟩
      have hany : value.any (fun item => item.id == a.id) = true :=
        List.any_eq_true.mpr ⟨b, hb, by simpa using hbid⟩
      rw [hany]
  · intro k hk
    rw [onSelectionChange_rows, get_foldl_sel, if_neg ?_]
    intro hany
    rcases List.any_eq_true.mp hany with ⟨a, ha, haeq⟩
    exact hk a ha (by simpa using haeq)

theorem C9_witness :
    (RowMap.get (onSelectionChange [wArt 1] wState).selectedRows (wArt 1).id = some true ↔
      (wArt 1).id ∈ [wArt 1].map (fun item => item.id)) ∧
    RowMap.get (onSelectionChange [wArt 1] wState).selectedRows 7 =
      RowMap.get wState.selectedRows 7 :=
  ⟨(C9_selection_change_frame [wArt 1] wState).1 (wArt 1) (by decide),
   (C9_selection_change_frame [wArt 1] wState).2 7 (by
      intro a ha
      have : a = wArt 1 ∨ a = wArt 2 := by
        simpa [wState] using ha
      rcases this with h | h <;> rw [h] <;> decide)⟩

/-- C10: the two source files compute the same function: every handler of
`src/unnamed/part_000` agrees extensionally with the one of
`src/src/App.tsx`; console logging (dropped in both embeddings) is their
only difference. -/
theorem C10_sources_equivalent :
    Part0.fetchArtworks = fetchArtworks ∧
    Part0.onPageChange = onPageChange ∧
    Part0.onSelectionChange = onSelectionChange ∧
    Part0.selectRows = selectRows ∧
    Part0.isRowSelected = isRowSelected := by
  refine ⟨rfl, rfl, rfl, ?_, rfl⟩
  funext api s
  unfold Part0.selectRows selectRows
  by_cases h : s.rowsToSelect ≤ 0
  · rw [if_pos h, if_pos h]
  · rw [if_neg h, if_neg h]
    dsimp only
    rw [part0_selectLoop_agree]

/-- C2: with every loop page responding, `selectRows` marks first the
`min N (page length)` prefix of the current page, then follows the
reference loop: pages `currentPage+1, currentPage+2, ...` fetched one at
a time (the fetched pages form a consecutive range), each contributing
its prefix of length `min remaining (page length)`, stopping at count
zero or at a page carrying no data. -/
theorem C2_select_order (api : Api) (s : AppState)
    (h1 : 1 ≤ s.rowsToSelect)
    (hok : ∀ q, s.currentPage < q → ∃ r, api q = .ok r) :
    (selectRows api s).state.selectedArtworkIds =
      ((s.artworks.take (min s.rowsToSelect.toNat s.artworks.length)).map (fun a => a.id)) ++
        (claimLoop (pageOf api)
          (s.rowsToSelect.toNat - min s.rowsToSelect.toNat s.artworks.length)
          (s.currentPage + 1)).1 ∧
    (selectRows api s).fetched =
      (claimLoop (pageOf api)
        (s.rowsToSelect.toNat - min s.rowsToSelect.toNat s.artworks.length)
        (s.currentPage + 1)).2 ∧
    (selectRows api s).fetched =
      List.range' (s.currentPage + 1) (selectRows api s).fetched.length := by
  have hpos : 0 < s.rowsToSelect := by omega
  rw [selectRows_pos api s hpos]
  dsimp only
  have hagree := selectLoop_claim_agree api
    (s.rowsToSelect.toNat - min s.rowsToSelect.toNat s.artworks.length)
    (s.currentPage + 1)
    ((s.artworks.take (min s.rowsToSelect.toNat s.artworks.length)).foldl
      (fun m a => RowMap.set m a.id true) [])
    ((s.artworks.take (min s.rowsToSelect.toNat s.artworks.length)).map
      (fun a => a.id)) s.loading
    (fun q hq => hok q (by omega))
  exact ⟨hagree.1, hagree.2, selectLoop_fetched_range api _ _ _ _ _⟩

theorem C2_witness :
    (selectRows emptyApi wState).state.selectedArtworkIds =
      ((wState.artworks.take (min wState.rowsToSelect.toNat wState.artworks.length)).map
        (fun a => a.id)) ++
        (claimLoop (pageOf emptyApi)
          (wState.rowsToSelect.toNat - min wState.rowsToSelect.toNat wState.artworks.length)
          (wState.currentPage + 1)).1 ∧
    (selectRows emptyApi wState).fetched =
      (claimLoop (pageOf emptyApi)
        (wState.rowsToSelect.toNat - min wState.rowsToSelect.toNat wState.artworks.length)
        (wState.currentPage + 1)).2 ∧
    (selectRows emptyApi wState).fetched =
      List.range' (wState.currentPage + 1) (selectRows emptyApi wState).fetched.length :=
  C2_select_order emptyApi wState (by decide) (fun q hq => ⟨_, rfl⟩)

/-- C3 counterexample: the claim "the stored selection state reflects no
partial result of the aborted operation" is false.  With one artwork on
the current page, a requested count of 2, and every fetch rejecting, the
loop aborts with the error toast — yet `selectRows` still commits the
partially accumulated selection: `selectedArtworkIds` goes from `[]` to
`[1]`, one of the two requested marks. -/
theorem C3_counterexample :
    cState.selectedArtworkIds = [] ∧
    cState.rowsToSelect = 2 ∧
    errApi (cState.currentPage + 1) = .error () ∧
    (selectRows errApi cState).toasts = [selectErrorToast, successToast 1] ∧
    (selectRows errApi cState).state.selectedArtworkIds = [1] := by
  refine ⟨rfl, rfl, rfl, ?_, ?_⟩ <;>
    rw [selectRows_pos errApi cState (by decide)] <;>
    dsimp only <;>
    rw [selectLoop_err errApi _ _ _ _ (by decide) rfl] <;>
    decide

/-- An oracle whose page 2 supplies a single record and whose every
other fetch rejects. -/
def mixApi : Api := fun p =>
  if p = 2 then
    .ok { data := some [wArt 3], pagination := { total := 24, current_page := 2 } }
  else
    .error ()

/-- The single-artwork state with a requested count of 3, so the loop
still wants rows after a successful page 2. -/
def c3State : AppState :=
  { cState with rowsToSelect := 3 }

/-- C3 amended: whenever the fetch of page `currentPage+1+j` inside the
loop fails after `j` successfully fetched non-empty pages that leave the
remaining count positive, the loop aborts at the failed page — it is
fetched exactly once, nothing beyond it is fetched (no retry) — and the
error toast is shown; `selectRows` nevertheless commits the partial
selection accumulated before the failure — the current page and the
prefixes taken from the `j` pages fetched earlier — to both
`selectedRows` and `selectedArtworkIds`, and still shows the success
toast counting those rows. -/
theorem C3_amended_abort_commits_partial (api : Api) (s : AppState) (j : Nat)
    (h1 : 1 ≤ s.rowsToSelect)
    (hsupply : ∀ q, s.currentPage < q → q ≤ s.currentPage + j →
      ∃ r l, api q = .ok r ∧ r.data = some l ∧ l ≠ [])
    (hrem : s.artworks.length + sumLens api (s.currentPage + 1) j < s.rowsToSelect.toNat)
    (e : Unit) (herr : api (s.currentPage + 1 + j) = .error e) :
    (selectRows api s).fetched = List.range' (s.currentPage + 1) (j + 1) ∧
    (selectRows api s).toasts = [selectErrorToast,
      successToast ((s.artworks.map (fun a => a.id)) ++
        partialIds api (s.rowsToSelect.toNat - s.artworks.length)
          (s.currentPage + 1) j).length] ∧
    (selectRows api s).state.selectedArtworkIds =
      (s.artworks.map (fun a => a.id)) ++
        partialIds api (s.rowsToSelect.toNat - s.artworks.length) (s.currentPage + 1) j ∧
    (selectRows api s).state.selectedRows =
      partialRows api (s.rowsToSelect.toNat - s.artworks.length) (s.currentPage + 1) j
        (s.artworks.foldl (fun m a => RowMap.set m a.id true) []) := by
  have hpos : 0 < s.rowsToSelect := by omega
  rw [selectRows_pos api s hpos]
  dsimp only
  have hcpc : min s.rowsToSelect.toNat s.artworks.length = s.artworks.length :=
    min_eq_right (by omega)
  rw [hcpc, List.take_length]
  rw [selectLoop_error_after api e j
    (s.rowsToSelect.toNat - s.artworks.length) (s.currentPage + 1)
    (s.artworks.foldl (fun m a => RowMap.set m a.id true) [])
    (s.artworks.map (fun a => a.id)) s.loading
    (fun q hq1 hq2 => hsupply q (by omega) (by omega))
    (by omega)
    herr]
  exact ⟨rfl, rfl, rfl, rfl⟩

theorem C3_amended_witness :
    (1 : Int) ≤ c3State.rowsToSelect ∧
    c3State.artworks.length + sumLens mixApi (c3State.currentPage + 1) 1 <
      c3State.rowsToSelect.toNat ∧
    mixApi (c3State.currentPage + 1 + 1) = .error () ∧
    ((selectRows mixApi c3State).fetched = List.range' (c3State.currentPage + 1) (1 + 1) ∧
      (selectRows mixApi c3State).toasts = [selectErrorToast,
        successToast ((c3State.artworks.map (fun a => a.id)) ++
          partialIds mixApi (c3State.rowsToSelect.toNat - c3State.artworks.length)
            (c3State.currentPage + 1) 1).length] ∧
      (selectRows mixApi c3State).state.selectedArtworkIds =
        (c3State.artworks.map (fun a => a.id)) ++
          partialIds mixApi (c3State.rowsToSelect.toNat - c3State.artworks.length)
            (c3State.currentPage + 1) 1 ∧
      (selectRows mixApi c3State).state.selectedRows =
        partialRows mixApi (c3State.rowsToSelect.toNat - c3State.artworks.length)
          (c3State.currentPage + 1) 1
          (c3State.artworks.foldl (fun m a => RowMap.set m a.id true) [])) :=
  ⟨by decide, by decide, rfl,
   C3_amended_abort_commits_partial mixApi c3State 1 (by decide)
     (fun q hq1 hq2 => by
        have hcp : c3State.currentPage = 1 := rfl
        rw [hcp] at hq1 hq2
        have hq : q = 2 := by omega
        rw [hq]
        exact ⟨{ data := some [wArt 3], pagination := { total := 24, current_page := 2 } },
          [wArt 3], rfl, rfl, by decide⟩)
     (by decide) () rfl⟩

/-- C6: assuming distinct identifiers from the API, the selection
invariant (unique map keys, duplicate-free id list, id list = ids mapped
`true`) is preserved by `onSelectionChange`, `selectRows`, and
`fetchArtworks`. -/
theorem C6_selection_invariant (api : Api) (s : AppState)
    (hs : SelInv s) (hd : ApiDistinct api s) :
    (∀ value, SelInv (onSelectionChange value s)) ∧
    SelInv (selectRows api s).state ∧
    (∀ page, SelInv (fetchArtworks api page s).1) := by
  obtain ⟨hkn, hidn, hiff⟩ := hs
  refine ⟨?_, ?_, ?_⟩
  · intro value
    have hkeys2 : (RowMap.keys (onSelectionChange value s).selectedRows).Nodup := by
      rw [onSelectionChange_rows]
      exact nodup_keys_foldl_sel value s.artworks s.selectedRows hkn
    have hids : (onSelectionChange value s).selectedArtworkIds =
        RowMap.trueKeys (RowMap.entriesJS ((onSelectionChange value s).selectedRows)) := rfl
    have htk := trueKeys_entriesJS _ hkeys2
    refine ⟨hkeys2, ?_, ?_⟩
    · rw [hids]
      exact htk.1
    · intro k
      rw [hids]
      exact htk.2 k
  · by_cases hpos : s.rowsToSelect ≤ 0
    · rw [selectRows, if_pos hpos]
      exact ⟨hkn, hidn, hiff⟩
    · rw [selectRows_pos api s (by omega)]
      dsimp only
      exact selectRows_inv_core api s hd _ _ s.loading
  · intro page
    cases hf : api page <;> simp only [fetchArtworks, hf] <;> exact ⟨hkn, hidn, hiff⟩

theorem C6_witness :
    SelInv (onSelectionChange [wArt 1] wState) ∧
    SelInv (selectRows emptyApi wState).state ∧
    SelInv (fetchArtworks emptyApi 2 wState).1 :=
  ⟨(C6_selection_invariant emptyApi wState selInv_wState apiDistinct_empty_wState).1 [wArt 1],
   (C6_selection_invariant emptyApi wState selInv_wState apiDistinct_empty_wState).2.1,
   (C6_selection_invariant emptyApi wState selInv_wState apiDistinct_empty_wState).2.2 2⟩

/-- C1: for a requested count `N ≥ 1`, `selectRows` marks at most `N`
ids (both in the committed id list and among the `true` entries of the
selection map); and it marks exactly `N` pairwise-distinct ids whenever
the current page and the pages `currentPage+1 .. K` supply at least `N`
records before any failing or empty page, with all supplied identifiers
distinct. -/
theorem C1_select_count (api : Api) (s : AppState) (h1 : 1 ≤ s.rowsToSelect) :
    (selectRows api s).state.selectedArtworkIds.length ≤ s.rowsToSelect.toNat ∧
    (RowMap.trueKeys (selectRows api s).state.selectedRows).length ≤ s.rowsToSelect.toNat ∧
    (∀ K, (∀ q, s.currentPage < q → q ≤ K →
        ∃ r l, api q = .ok r ∧ r.data = some l ∧ l ≠ []) →
      s.rowsToSelect.toNat ≤ s.artworks.length +
        sumLens api (s.currentPage + 1) (K - s.currentPage) →
      ApiDistinct api s →
      (selectRows api s).state.selectedArtworkIds.length = s.rowsToSelect.toNat ∧
      (selectRows api s).state.selectedArtworkIds.Nodup) := by
  have hpos : 0 < s.rowsToSelect := by omega
  rw [selectRows_pos api s hpos]
  dsimp only
  have hlen0 : ((s.artworks.take (min s.rowsToSelect.toNat s.artworks.length)).map
      (fun a => a.id)).length = min s.rowsToSelect.toNat s.artworks.length := by
    rw [List.length_map, List.length_take]
    exact min_eq_left (Nat.min_le_right _ _)
  have hminN : min s.rowsToSelect.toNat s.artworks.length ≤ s.rowsToSelect.toNat :=
    Nat.min_le_left _ _
  have hble := selectLoop_ids_len_le api
    (s.rowsToSelect.toNat - min s.rowsToSelect.toNat s.artworks.length)
    (s.currentPage + 1)
    ((s.artworks.take (min s.rowsToSelect.toNat s.artworks.length)).foldl
      (fun m a => RowMap.set m a.id true) [])
    ((s.artworks.take (min s.rowsToSelect.toNat s.artworks.length)).map
      (fun a => a.id)) s.loading
  refine ⟨by omega, ?_, ?_⟩
  · have hkeysn : (RowMap.keys (selectLoop api
        (s.rowsToSelect.toNat - min s.rowsToSelect.toNat s.artworks.length)
        (s.currentPage + 1)
        ((s.artworks.take (min s.rowsToSelect.toNat s.artworks.length)).foldl
          (fun m a => RowMap.set m a.id true) [])
        ((s.artworks.take (min s.rowsToSelect.toNat s.artworks.length)).map
          (fun a => a.id)) s.loading).rows).Nodup :=
      selectLoop_keys_nodup api _ _ _ _ _
        (nodup_keys_foldl_mark _ [] (by simp [RowMap.keys]))
    have hsub : RowMap.trueKeys (selectLoop api
        (s.rowsToSelect.toNat - min s.rowsToSelect.toNat s.artworks.length)
        (s.currentPage + 1)
        ((s.artworks.take (min s.rowsToSelect.toNat s.artworks.length)).foldl
          (fun m a => RowMap.set m a.id true) [])
        ((s.artworks.take (min s.rowsToSelect.toNat s.artworks.length)).map
          (fun a => a.id)) s.loading).rows ⊆
        (selectLoop api
        (s.rowsToSelect.toNat - min s.rowsToSelect.toNat s.artworks.length)
        (s.currentPage + 1)
        ((s.artworks.take (min s.rowsToSelect.toNat s.artworks.length)).foldl
          (fun m a => RowMap.set m a.id true) [])
        ((s.artworks.take (min s.rowsToSelect.toNat s.artworks.length)).map
          (fun a => a.id)) s.loading).ids := by
      intro k hk
      have hmem := (RowMap.mem_trueKeys _ k).mp hk
      have hget := RowMap.mem_get hkeysn hmem
      exact selectLoop_true_sub api _ _ _ _ _
        (fun k hk0 => (mark_from_nil _ k).mp hk0) k hget
    have hsp := (List.subperm_of_subset (RowMap.nodup_trueKeys _ hkeysn) hsub).length_le
    omega
  · intro K hall hsum hdist
    constructor
    · have hsum2 : s.rowsToSelect.toNat - min s.rowsToSelect.toNat s.artworks.length ≤
          sumLens api (s.currentPage + 1) (K - s.currentPage) := by
        rcases Nat.le_total s.rowsToSelect.toNat s.artworks.length with hc | hc
        · rw [min_eq_left hc]
          omega
        · rw [min_eq_right hc]
          omega
      have hex := selectLoop_ids_len_exact api (K - s.currentPage)
        (s.rowsToSelect.toNat - min s.rowsToSelect.toNat s.artworks.length)
        (s.currentPage + 1)
        ((s.artworks.take (min s.rowsToSelect.toNat s.artworks.length)).foldl
          (fun m a => RowMap.set m a.id true) [])
        ((s.artworks.take (min s.rowsToSelect.toNat s.artworks.length)).map
          (fun a => a.id)) s.loading
        (fun q hq1 hq2 => hall q (by omega) (by omega)) hsum2
      omega
    · exact (selectRows_inv_core api s hdist
        (s.rowsToSelect.toNat - min s.rowsToSelect.toNat s.artworks.length)
        (min s.rowsToSelect.toNat s.artworks.length) s.loading).2.1

theorem C1_witness :
    (1 : Int) ≤ wState.rowsToSelect ∧
    (selectRows emptyApi wState).state.selectedArtworkIds.length ≤
      wState.rowsToSelect.toNat ∧
    (selectRows emptyApi wState).state.selectedArtworkIds.length =
      wState.rowsToSelect.toNat ∧
    (selectRows emptyApi wState).state.selectedArtworkIds.Nodup :=
  ⟨by decide,
   (C1_select_count emptyApi wState (by decide)).1,
   ((C1_select_count emptyApi wState (by decide)).2.2 1
      (fun q hq1 hq2 => absurd (Nat.lt_of_lt_of_le hq1 hq2) (by decide))
      (by decide) apiDistinct_empty_wState).1,
   ((C1_select_count emptyApi wState (by decide)).2.2 1
      (fun q hq1 hq2 => absurd (Nat.lt_of_lt_of_le hq1 hq2) (by decide))
      (by decide) apiDistinct_empty_wState).2⟩

end GrowMe
